import Mathlib

/-!
Shallow embedding of the access-controlled file-storage core of the
`alx-files_manager` service: `FilesController` (upload, listing, visibility
toggles, visibility-gated fetch) and `UsersController.postNew`.

Modelling conventions, read against the JavaScript source:
* MongoDB BSON values that the code stores under `userId` / `parentId` are
  modelled by `BVal`, which distinguishes a raw string (`.str`), an
  `ObjectId` (`.oid`, carrying its hex string), and a JS number (`.num`).
  Mongo equality never identifies values of different BSON types, so the
  derived `BEq` (constructor-wise equality) is the faithful match semantics.
  Identifier strings stand for well-formed ObjectId hex strings (the spec
  treats identifiers as opaque, parsed at the boundary).
* `findOne` on a collection is first-match over the list in natural
  (insertion) order; `insertOne` appends; `updateOne` updates the first match.
* JS truthiness of request fields is modelled at the boundary: an absent or
  falsy string field is `Option.none` / `""`, a falsy `isPublic` is `false`.
* The byte-storage capability is an association list from paths to byte
  lists; a write prepends (so a later read of the same path sees the write).
* The nondeterministic fresh names (`uuidv4`, Mongo's generated `_id`) and
  the success of `fs.promises.writeFile` are explicit parameters.
* Each operation additionally returns the ordered list of its storage /
  metadata / queue effects (`Ev`), making the §4.3 ordering observable.
-/

/-- A BSON-ish value as stored by the code: raw JS string, ObjectId
(identified by its 24-hex string), or JS number.  Mongo query equality is
the derived constructor-wise equality: an ObjectId never equals a string. -/
inductive BVal where
  | str (s : String)
  | oid (s : String)
  | num (n : Int)
deriving BEq, DecidableEq, Repr

/-- JS `.toString()` on a stored id value: `ObjectId.toString()` yields the
hex string, a string yields itself (`file.userId.toString()` in `getFile`). -/
def BVal.bstr : BVal → String
  | .str s => s
  | .oid s => s
  | .num n => toString n

/-- A document of the `files` collection.  `_id` is always Mongo-generated,
so it is kept as the hex string.  `localPath` is present only for
`file` / `image` kinds. -/
structure FileDoc where
  _id : String
  userId : BVal
  name : String
  type : String
  isPublic : Bool
  parentId : BVal
  localPath : Option String
deriving BEq, DecidableEq, Repr

/-- A document of the `users` collection. -/
structure UserDoc where
  _id : String
  email : String
  password : String
deriving BEq, DecidableEq, Repr

/-- Session store (Redis): association list from keys (`"auth_" ++ token`)
to user-id strings. -/
abbrev Sessions := List (String × String)

/-- `redisClient.get`: first binding of the key, if any. -/
def sget (sess : Sessions) (k : String) : Option String :=
  (sess.find? (fun e => e.1 == k)).map (·.2)

/-- The byte-storage area: paths to byte contents. -/
abbrev Disk := List (String × List Nat)

/-- `fs.promises.writeFile`: (over)writes the path; a later first-match read
sees the new contents. -/
def diskWrite (d : Disk) (p : String) (bs : List Nat) : Disk :=
  (p, bs) :: d

/-- `fs.existsSync` + `res.sendFile`: contents at the path, if present. -/
def diskRead (d : Disk) (p : String) : Option (List Nat) :=
  (d.find? (fun e => e.1 == p)).map (·.2)

/-- Combined mutable state touched by `FilesController`: the `files`
collection, the byte-storage area, and the `fileQueue` jobs
(fileId, userId). -/
structure St where
  files : List FileDoc
  disk : Disk
  queue : List (String × String)
deriving BEq, DecidableEq, Repr

/-- `findOne({ _id: ObjectId(fid) })`: first document with that id. -/
def findFileById (files : List FileDoc) (fid : String) : Option FileDoc :=
  files.find? (fun f => f._id == fid)

/-- `findOne({ _id: ObjectId(fid), userId: ObjectId(uid) })`: first document
matching both the id and the ObjectId form of the user id. -/
def findFileOwned (files : List FileDoc) (fid uid : String) : Option FileDoc :=
  files.find? (fun f => f._id == fid && f.userId == BVal.oid uid)

/-- Base64 value of one alphabet character (RFC alphabet); `none` for
characters Node's decoder skips (including `=` padding). -/
def b64val (c : Char) : Option Nat :=
  if 'A' ≤ c ∧ c ≤ 'Z' then some (c.toNat - 65)
  else if 'a' ≤ c ∧ c ≤ 'z' then some (c.toNat - 97 + 26)
  else if '0' ≤ c ∧ c ≤ '9' then some (c.toNat - 48 + 52)
  else if c = '+' then some 62
  else if c = '/' then some 63
  else none

/-- Reassembles bytes from a list of 6-bit values, as `Buffer.from(·, 'base64')`
does after dropping non-alphabet characters. -/
def b64bytes : List Nat → List Nat
  | a :: b :: c :: d :: rest =>
      (a * 4 + b / 16) :: ((b % 16) * 16 + c / 4) :: ((c % 4) * 64 + d) :: b64bytes rest
  | [a, b, c] => [a * 4 + b / 16, (b % 16) * 16 + c / 4]
  | [a, b] => [a * 4 + b / 16]
  | [_] => []
  | [] => []

/-- `Buffer.from(data, 'base64')`: decode, ignoring non-alphabet characters. -/
def b64decode (s : String) : List Nat :=
  b64bytes (s.data.filterMap b64val)

/-- Effects of an operation, in execution order: parent lookup in the
metadata store, byte write to storage, metadata commit, queue enqueue. -/
inductive Ev where
  | lookupParent (pid : String)
  | writeBytes (path : String) (bytes : List Nat)
  | commitMeta (id : String)
  | enqueueJob (fileId : String) (userId : String)
deriving BEq, DecidableEq, Repr

/-- `process.env.FOLDER_PATH || '/tmp/files_manager'` (default, env unset). -/
def folderName : String := "/tmp/files_manager"

/-- The request body of `postUpload`.  `none` / `""` / `false` model absent
or falsy JS fields. -/
structure UploadBody where
  name : String
  type : String
  isPublic : Bool
  data : Option String
  parentId : Option String
deriving BEq, DecidableEq, Repr

/-- `['folder', 'file', 'image'].includes(type)` (with `!type` subsumed:
the empty string is not in the list). -/
def validType (t : String) : Bool :=
  t == "folder" || t == "file" || t == "image"

/-- The response document serialized on a 201: `folderData` spread with the
inserted id (and `localPath` for file/image), `parentId` normalized to the
number `0` for the root sentinel. -/
structure RespDoc where
  id : String
  userId : BVal
  name : String
  type : String
  isPublic : Bool
  parentId : BVal
  localPath : Option String
deriving BEq, DecidableEq, Repr

/-- `parentId === '0' ? 0 : ObjectId(parentId)` applied to the already
converted parent value. -/
def normRoot (p : BVal) : BVal :=
  if p == BVal.str "0" then BVal.num 0 else p

/-- Outcome of `postUpload`. -/
inductive UpRes where
  | unauthorized
  | badRequest (msg : String)
  | created (doc : RespDoc)
  | writeError
deriving BEq, DecidableEq, Repr

/-- Lines 64–103 of `postUpload`, after auth, validation and parent
resolution: `folderData` construction, the folder branch's commit, or the
file/image branch's write → commit → (image-only) enqueue.  `parentId` is the
already converted value (line 62): `.str "0"` or `.oid pid`.  Note the folder
branch inserts the raw string `userId` (source line 77) while `folderData`
and the file branch store `ObjectId(userId)` (line 66). -/
def postUploadCore (userId : String) (body : UploadBody) (parentId : BVal)
    (fileId newId : String) (writeOk : Bool) (st : St) (ev : List Ev) :
    UpRes × St × List Ev :=
  if body.type == "folder" then
    let doc : FileDoc :=
      { _id := newId, userId := BVal.str userId, name := body.name,
        type := body.type, isPublic := body.isPublic, parentId := parentId,
        localPath := none }
    (UpRes.created
      { id := newId, userId := BVal.oid userId, name := body.name,
        type := body.type, isPublic := body.isPublic,
        parentId := normRoot parentId, localPath := none },
     { st with files := st.files ++ [doc] },
     ev ++ [Ev.commitMeta newId])
  else
    let localPath := folderName ++ "/" ++ fileId
    if writeOk then
      let bytes := b64decode (body.data.getD "")
      let st1 := { st with disk := diskWrite st.disk localPath bytes }
      let doc : FileDoc :=
        { _id := newId, userId := BVal.oid userId, name := body.name,
          type := body.type, isPublic := body.isPublic, parentId := parentId,
          localPath := some localPath }
      let st2 := { st1 with files := st1.files ++ [doc] }
      let st3 :=
        if body.type == "image" then
          { st2 with queue := st2.queue ++ [(newId, userId)] }
        else st2
      let ev2 :=
        if body.type == "image" then
          [Ev.writeBytes localPath bytes, Ev.commitMeta newId,
           Ev.enqueueJob newId userId]
        else [Ev.writeBytes localPath bytes, Ev.commitMeta newId]
      (UpRes.created
        { id := newId, userId := BVal.oid userId, name := body.name,
          type := body.type, isPublic := body.isPublic,
          parentId := normRoot parentId, localPath := some localPath },
       st3, ev ++ ev2)
    else
      (UpRes.writeError, st, ev)

/-- `FilesController.postUpload`.  `fileId` is the `uuidv4()` storage name,
`newId` the Mongo-generated `_id` of the inserted document, `writeOk` whether
`fs.promises.writeFile` succeeds. -/
def postUpload (sess : Sessions) (token? : Option String) (body : UploadBody)
    (fileId newId : String) (writeOk : Bool) (st : St) : UpRes × St × List Ev :=
  match token? with
  | none => (UpRes.unauthorized, st, [])
  | some token =>
    match sget sess ("auth_" ++ token) with
    | none => (UpRes.unauthorized, st, [])
    | some userId =>
      if body.name == "" then (UpRes.badRequest "Missing name", st, [])
      else if !validType body.type then (UpRes.badRequest "Missing type", st, [])
      else if body.data.isNone && !(body.type == "folder") then
        (UpRes.badRequest "Missing data", st, [])
      else
        let pid := body.parentId.getD "0"
        if pid == "0" then
          postUploadCore userId body (BVal.str "0") fileId newId writeOk st []
        else
          match findFileById st.files pid with
          | none =>
              (UpRes.badRequest "Parent not found", st, [Ev.lookupParent pid])
          | some parentFile =>
              if !(parentFile.type == "folder") then
                (UpRes.badRequest "Parent is not a folder", st,
                 [Ev.lookupParent pid])
              else
                postUploadCore userId body (BVal.oid pid) fileId newId writeOk
                  st [Ev.lookupParent pid]

/-- The access stage of `FilesController.getFile` (source line 195), with the
guard condition negated into "the request passes": the original is
`!file.isPublic && (!userId || userId !== file.userId.toString())`, so the
request passes iff the entry is public or the resolved caller id string
equals `file.userId.toString()`. -/
def fetchAccessOk (userId? : Option String) (f : FileDoc) : Bool :=
  f.isPublic ||
    (match userId? with
     | none => false
     | some u => u == f.userId.bstr)

/-- `if (size) localPath = localPath + '_' + size`: the base storage path, or
the base path suffixed by the size token. -/
def resolvePath (f : FileDoc) (size? : Option String) : String :=
  let lp := f.localPath.getD ""
  match size? with
  | some s => lp ++ "_" ++ s
  | none => lp

/-- Outcome of `getFile`.  `noContent` is the 400 "A folder doesn't have
content"; a successful send carries the bytes at the resolved path (the
`Content-Type` header, inferred by the external `mime` library from the
entry's name, is not modelled). -/
inductive FetchRes where
  | notFound
  | noContent
  | ok (bytes : List Nat)
deriving BEq, DecidableEq, Repr

/-- `FilesController.getFile`: id-only lookup, visibility gate, folder
rejection, size-variant path resolution, existence check, send. -/
def getFile (sess : Sessions) (token? : Option String) (fid : String)
    (size? : Option String) (st : St) : FetchRes :=
  let userId? := token?.bind (fun t => sget sess ("auth_" ++ t))
  match findFileById st.files fid with
  | none => FetchRes.notFound
  | some file =>
    if !fetchAccessOk userId? file then FetchRes.notFound
    else if file.type == "folder" then FetchRes.noContent
    else
      match diskRead st.disk (resolvePath file size?) with
      | none => FetchRes.notFound
      | some bytes => FetchRes.ok bytes

/-- JS `parseInt(s, 10)`: skip leading whitespace, optional sign, longest
digit run; `NaN` (here `none`) when no digit follows.  The argument is the
optional query string (`parseInt(undefined, 10)` is `NaN`). -/
def jsParseInt : Option String → Option Int
  | none => none
  | some s =>
    let cs := s.data.dropWhile (fun c => c = ' ' || c = '\t' || c = '\n' || c = '\r')
    let signed : Int × List Char :=
      match cs with
      | '-' :: rest => (-1, rest)
      | '+' :: rest => (1, rest)
      | _ => (1, cs)
    let ds := signed.2.takeWhile Char.isDigit
    if ds.isEmpty then none
    else some (signed.1 * (ds.foldl (fun a c => a * 10 + (c.toNat - 48)) 0 : Nat))

/-- JS strict equality between a number and a string is always false
(`filesCount === '0'` on source line 134 can never hold). -/
def jsStrictEqNumStr (_ : Nat) (_ : String) : Bool := false

/-- A listing item: `{...file, id: file._id, _id: undefined}`. -/
structure IndexDoc where
  id : String
  userId : BVal
  name : String
  type : String
  isPublic : Bool
  parentId : BVal
  localPath : Option String
deriving BEq, DecidableEq, Repr

/-- The reshaping applied to each listed document. -/
def reshape (f : FileDoc) : IndexDoc :=
  { id := f._id, userId := f.userId, name := f.name, type := f.type,
    isPublic := f.isPublic, parentId := f.parentId, localPath := f.localPath }

/-- Outcome of `getIndex`.  `serverError` models the unhandled rejection
Mongo raises on a negative `$skip`. -/
inductive IndexRes where
  | unauthorized
  | okList (docs : List IndexDoc)
  | serverError
deriving BEq, DecidableEq, Repr

/-- The `$match` filter of `getIndex`: both the user id (as ObjectId) and the
requested parent value must match. -/
def indexMatch (userId parentId : BVal) (f : FileDoc) : Bool :=
  f.userId == userId && f.parentId == parentId

/-- `FilesController.getIndex`: auth, parent/user filter, dead string-typed
count check, `$skip (page*20)`, `$limit 20`, reshape. -/
def getIndex (sess : Sessions) (token? : Option String)
    (parentIdQ pageQ : Option String) (st : St) : IndexRes :=
  match token? with
  | none => IndexRes.unauthorized
  | some token =>
    match sget sess ("auth_" ++ token) with
    | none => IndexRes.unauthorized
    | some userIdString =>
      let parentId := match parentIdQ with
        | some p => BVal.oid p
        | none => BVal.str "0"
      let userId := BVal.oid userIdString
      let filesCount := (st.files.filter (indexMatch userId parentId)).length
      if jsStrictEqNumStr filesCount "0" then IndexRes.okList []
      else
        let skip : Int := (jsParseInt pageQ).getD 0 * 20
        if skip < 0 then IndexRes.serverError
        else
          let files :=
            (((st.files.filter (indexMatch userId parentId)).drop skip.toNat).take 20)
          IndexRes.okList (files.map reshape)

/-- Outcome of the visibility toggles.  `okMissing` stands for the
unreachable `res.json(undefined)` when the refreshed lookup finds nothing. -/
inductive VisRes where
  | unauthorized
  | notFound
  | ok (doc : FileDoc)
  | okMissing
deriving BEq, DecidableEq, Repr

/-- `updateOne({_id: ObjectId(fid)}, {$set: {isPublic: b}})`: set the flag on
the first document with that id. -/
def updateFirstIsPublic : List FileDoc → String → Bool → List FileDoc
  | [], _, _ => []
  | f :: rest, fid, b =>
      if f._id == fid then { f with isPublic := b } :: rest
      else f :: updateFirstIsPublic rest fid b

/-- Common body of `putPublish` / `putUnpublish` (the two handlers are
textually identical except for the boolean written): auth, owner-scoped
lookup, id-scoped update, refreshed lookup. -/
def putVis (b : Bool) (sess : Sessions) (token? : Option String)
    (fid : String) (st : St) : VisRes × St :=
  match token? with
  | none => (VisRes.unauthorized, st)
  | some token =>
    match sget sess ("auth_" ++ token) with
    | none => (VisRes.unauthorized, st)
    | some userId =>
      match findFileOwned st.files fid userId with
      | none => (VisRes.notFound, st)
      | some _ =>
        let files' := updateFirstIsPublic st.files fid b
        let st' := { st with files := files' }
        match findFileById files' fid with
        | some updated => (VisRes.ok updated, st')
        | none => (VisRes.okMissing, st')

/-- `FilesController.putPublish`. -/
def putPublish (sess : Sessions) (token? : Option String) (fid : String)
    (st : St) : VisRes × St :=
  putVis true sess token? fid st

/-- `FilesController.putUnpublish`. -/
def putUnpublish (sess : Sessions) (token? : Option String) (fid : String)
    (st : St) : VisRes × St :=
  putVis false sess token? fid st

/-- The opaque one-way password digest (the external `sha1` library; the
spec treats hashing mechanics as an opaque digest function). -/
def sha1 (s : String) : String := "sha1:" ++ s

/-- Outcome of `UsersController.postNew`.  The duplicate-email rejection is
the 400 `'Already exist'` body — the spec's `Conflict`. -/
inductive NewUserRes where
  | badRequest (msg : String)
  | created (id : String) (email : String)
deriving BEq, DecidableEq, Repr

/-- `UsersController.postNew`: presence checks, duplicate-email lookup,
hash, insert, enqueue on `userQueue`.  Returns the outcome, the updated
`users` collection and the enqueued user ids. -/
def postNew (email? password? : Option String) (newId : String)
    (users : List UserDoc) : NewUserRes × List UserDoc × List String :=
  match email? with
  | none => (NewUserRes.badRequest "Missing email", users, [])
  | some email =>
    match password? with
    | none => (NewUserRes.badRequest "Missing password", users, [])
    | some password =>
      match users.find? (fun u => u.email == email) with
      | some _ => (NewUserRes.badRequest "Already exist", users, [])
      | none =>
        let users' := users ++ [{ _id := newId, email := email,
                                  password := sha1 password }]
        (NewUserRes.created newId email, users', [newId])

/-- Equality of two `files` documents on every field except `isPublic`. -/
def sameExceptPublic (o n : FileDoc) : Prop :=
  n._id = o._id ∧ n.userId = o.userId ∧ n.name = o.name ∧
  n.type = o.type ∧ n.parentId = o.parentId ∧ n.localPath = o.localPath

/-- If a predicate finds nothing in the first list, searching the
concatenation searches the second list. -/
theorem find?_append_of_none {α : Type} (p : α → Bool) (l1 l2 : List α)
    (h : l1.find? p = none) : (l1 ++ l2).find? p = l2.find? p := by
  induction l1 with
  | nil => rfl
  | cons a t ih =>
    cases hpa : p a with
    | true =>
      rw [List.find?_cons_of_pos _ hpa] at h
      exact absurd h (by simp)
    | false =>
      rw [List.find?_cons_of_neg _ (by simp [hpa])] at h
      rw [List.cons_append, List.find?_cons_of_neg _ (by simp [hpa])]
      exact ih h

/-- C3: the claim that listing returns all stored entries of the caller under
the requested parent — including folder-kind entries created through the
upload pipeline — fails on the code.  A folder committed by `postUpload` for
user `u` stores `userId` as the raw string `"u"` (source line 77), while
`getIndex` matches on `ObjectId("u")`; BSON equality never identifies the
two, so the owner's own folder is omitted from page 0 of the root listing,
which comes back empty. -/
theorem c3_folder_omitted_from_listing_eval :
    (postUpload [("auth_t", "u")] (some "t")
        { name := "docs", type := "folder", isPublic := false,
          data := none, parentId := none } "F" "N1" true
        { files := [], disk := [], queue := [] }).2.1.files
      = [{ _id := "N1", userId := BVal.str "u", name := "docs",
           type := "folder", isPublic := false, parentId := BVal.str "0",
           localPath := none }]
    ∧ getIndex [("auth_t", "u")] (some "t") none none
        (postUpload [("auth_t", "u")] (some "t")
          { name := "docs", type := "folder", isPublic := false,
            data := none, parentId := none } "F" "N1" true
          { files := [], disk := [], queue := [] }).2.1
      = IndexRes.okList [] := by
  exact ⟨rfl, rfl⟩

/-- C6: the claim that toggling visibility twice succeeds and is idempotent
for every entry owned by the caller fails on the code for folder-kind
entries: the upload pipeline stores a folder's `userId` as a raw string
while `putPublish` looks the entry up by `ObjectId(userId)`, so the owner's
publish request returns `Not found` both times and the store is untouched. -/
theorem c6_publish_folder_notfound_eval :
    (putPublish [("auth_t", "u")] (some "t") "N1"
        (postUpload [("auth_t", "u")] (some "t")
          { name := "docs", type := "folder", isPublic := false,
            data := none, parentId := none } "F" "N1" true
          { files := [], disk := [], queue := [] }).2.1).1
      = VisRes.notFound
    ∧ (putPublish [("auth_t", "u")] (some "t") "N1"
        (putPublish [("auth_t", "u")] (some "t") "N1"
          (postUpload [("auth_t", "u")] (some "t")
            { name := "docs", type := "folder", isPublic := false,
              data := none, parentId := none } "F" "N1" true
            { files := [], disk := [], queue := [] }).2.1).2).1
      = VisRes.notFound
    ∧ (putPublish [("auth_t", "u")] (some "t") "N1"
        (putPublish [("auth_t", "u")] (some "t") "N1"
          (postUpload [("auth_t", "u")] (some "t")
            { name := "docs", type := "folder", isPublic := false,
              data := none, parentId := none } "F" "N1" true
            { files := [], disk := [], queue := [] }).2.1).2).2
      = (postUpload [("auth_t", "u")] (some "t")
          { name := "docs", type := "folder", isPublic := false,
            data := none, parentId := none } "F" "N1" true
          { files := [], disk := [], queue := [] }).2.1 := by
  exact ⟨rfl, rfl, rfl⟩

/-- C1: for a nonexistent identifier `getFile` answers `notFound`; for a
stored entry, the access stage passes exactly when the entry is public or
the request's token resolves to the entry's owner id, a denied request gets
the same `notFound` as a nonexistent identifier, and a permitted request
proceeds to the folder check and the storage read. -/
theorem c1_fetch_access_gate (sess : Sessions) (token? : Option String)
    (fid : String) (size? : Option String) (st : St) :
    (findFileById st.files fid = none →
      getFile sess token? fid size? st = FetchRes.notFound)
    ∧ (∀ f, findFileById st.files fid = some f →
        (fetchAccessOk (token?.bind fun t => sget sess ("auth_" ++ t)) f = true
          ↔ (f.isPublic = true ∨
             token?.bind (fun t => sget sess ("auth_" ++ t)) = some f.userId.bstr))
        ∧ (fetchAccessOk (token?.bind fun t => sget sess ("auth_" ++ t)) f = false →
            getFile sess token? fid size? st = FetchRes.notFound)
        ∧ (fetchAccessOk (token?.bind fun t => sget sess ("auth_" ++ t)) f = true →
            getFile sess token? fid size? st =
              if f.type == "folder" then FetchRes.noContent
              else
                match diskRead st.disk (resolvePath f size?) with
                | none => FetchRes.notFound
                | some bytes => FetchRes.ok bytes)) := by
  refine ⟨fun h => by simp [getFile, h], fun f hf => ⟨?_, ?_, ?_⟩⟩
  · cases huid : token?.bind fun t => sget sess ("auth_" ++ t) with
    | none => simp [fetchAccessOk]
    | some u => simp [fetchAccessOk, beq_iff_eq]
  · intro hacc
    simp [getFile, hf, hacc]
  · intro hacc
    simp [getFile, hf, hacc]

/-- C1 witness: one private file entry; a request without a token is denied
with `notFound`, and the access condition evaluates as the claim states. -/
theorem c1_fetch_access_gate_witness :
    findFileById
        (St.mk [FileDoc.mk "N" (BVal.oid "u") "a.txt" "file" false
          (BVal.str "0") (some "/tmp/files_manager/F")] [] []).files "N"
      = some (FileDoc.mk "N" (BVal.oid "u") "a.txt" "file" false
          (BVal.str "0") (some "/tmp/files_manager/F"))
    ∧ getFile [] none "N" none
        (St.mk [FileDoc.mk "N" (BVal.oid "u") "a.txt" "file" false
          (BVal.str "0") (some "/tmp/files_manager/F")] [] [])
      = FetchRes.notFound :=
  ⟨rfl,
   ((c1_fetch_access_gate [] none "N" none
      (St.mk [FileDoc.mk "N" (BVal.oid "u") "a.txt" "file" false
        (BVal.str "0") (some "/tmp/files_manager/F")] [] [])).2
      (FileDoc.mk "N" (BVal.oid "u") "a.txt" "file" false
        (BVal.str "0") (some "/tmp/files_manager/F")) rfl).2.1 rfl⟩

/-- C10: a listing request whose page parameter is absent or not parseable
as an integer behaves exactly as a request for page `"0"`. -/
theorem c10_page_default (sess : Sessions) (token? : Option String)
    (parentIdQ pageQ : Option String) (st : St)
    (hpage : jsParseInt pageQ = none) :
    getIndex sess token? parentIdQ pageQ st
      = getIndex sess token? parentIdQ (some "0") st := by
  cases token? with
  | none => rfl
  | some t =>
    simp only [getIndex]
    cases hs : sget sess ("auth_" ++ t) with
    | none => rfl
    | some u =>
      simp only [hpage]
      rfl

/-- C10 witness: `page = "abc"` is not parseable and lists like page 0. -/
theorem c10_page_default_witness :
    jsParseInt (some "abc") = none
    ∧ getIndex [("auth_t", "u")] (some "t") none (some "abc")
        { files := [], disk := [], queue := [] }
      = getIndex [("auth_t", "u")] (some "t") none (some "0")
        { files := [], disk := [], queue := [] } :=
  ⟨rfl, c10_page_default [("auth_t", "u")] (some "t") none (some "abc")
    { files := [], disk := [], queue := [] } rfl⟩

/-- C7: creating a user whose email already exists is rejected with the
`Conflict` outcome (400 `'Already exist'`) and leaves the collection and the
queue unchanged; otherwise creation succeeds and commits exactly one record
with that email. -/
theorem c7_email_unique (email password newId : String) (users : List UserDoc) :
    ((∃ u ∈ users, u.email = email) →
      postNew (some email) (some password) newId users
        = (NewUserRes.badRequest "Already exist", users, []))
    ∧ ((∀ u ∈ users, u.email ≠ email) →
      postNew (some email) (some password) newId users
        = (NewUserRes.created newId email,
           users ++ [UserDoc.mk newId email (sha1 password)], [newId])
      ∧ ((users ++ [UserDoc.mk newId email (sha1 password)]).filter
            (fun u => u.email == email)).length = 1) := by
  constructor
  · rintro ⟨u, hu, he⟩
    have hsome : (users.find? (fun v => v.email == email)).isSome :=
      List.find?_isSome.mpr ⟨u, hu, by simp [he]⟩
    cases hfind : users.find? (fun v => v.email == email) with
    | none => rw [hfind] at hsome; simp at hsome
    | some w => simp [postNew, hfind]
  · intro h
    have hnone : users.find? (fun v => v.email == email) = none :=
      List.find?_eq_none.mpr (fun x hx => by simp [h x hx])
    refine ⟨by simp [postNew, hnone], ?_⟩
    rw [List.filter_append]
    have h1 : users.filter (fun u => u.email == email) = [] :=
      List.filter_eq_nil_iff.mpr (fun a ha => by simp [h a ha])
    simp [h1]

/-- C7 witness: a duplicate email is rejected and leaves the store intact;
a fresh email commits exactly one record. -/
theorem c7_email_unique_witness :
    postNew (some "a@x.com") (some "pw2") "U2"
        [UserDoc.mk "U1" "a@x.com" (sha1 "pw1")]
      = (NewUserRes.badRequest "Already exist",
         [UserDoc.mk "U1" "a@x.com" (sha1 "pw1")], [])
    ∧ postNew (some "a@x.com") (some "pw1") "U1" []
      = (NewUserRes.created "U1" "a@x.com",
         [UserDoc.mk "U1" "a@x.com" (sha1 "pw1")], ["U1"]) :=
  ⟨(c7_email_unique "a@x.com" "pw2" "U2"
      [UserDoc.mk "U1" "a@x.com" (sha1 "pw1")]).1
      ⟨UserDoc.mk "U1" "a@x.com" (sha1 "pw1"), by simp, rfl⟩,
   ((c7_email_unique "a@x.com" "pw1" "U1" []).2 (by simp)).1⟩

/-- The first-match `isPublic` update relates the old and new collections
pointwise: every document keeps every field except possibly `isPublic`, and
a document whose id differs from the target is untouched. -/
theorem updateFirstIsPublic_frame (files : List FileDoc) (fid : String) (b : Bool) :
    List.Forall₂
      (fun o n => sameExceptPublic o n ∧ ((o._id == fid) = false → n = o))
      files (updateFirstIsPublic files fid b) := by
  induction files with
  | nil => exact List.Forall₂.nil
  | cons f t ih =>
    unfold updateFirstIsPublic
    by_cases hf : (f._id == fid) = true
    · rw [if_pos hf]
      exact List.Forall₂.cons
        ⟨⟨rfl, rfl, rfl, rfl, rfl, rfl⟩, fun hc => by simp [hc] at hf⟩
        (List.forall₂_same.mpr fun x _ =>
          ⟨⟨rfl, rfl, rfl, rfl, rfl, rfl⟩, fun _ => rfl⟩)
    · rw [if_neg hf]
      exact List.Forall₂.cons
        ⟨⟨rfl, rfl, rfl, rfl, rfl, rfl⟩, fun _ => rfl⟩ ih

/-- The state left by a visibility toggle is either untouched or has exactly
its first id-match's `isPublic` set. -/
theorem putVis_state (b : Bool) (sess : Sessions) (token? : Option String)
    (fid : String) (st : St) :
    (putVis b sess token? fid st).2 = st ∨
    (putVis b sess token? fid st).2
      = { st with files := updateFirstIsPublic st.files fid b } := by
  cases token? with
  | none => exact Or.inl rfl
  | some t =>
    cases hs : sget sess ("auth_" ++ t) with
    | none => left; simp [putVis, hs]
    | some u =>
      cases ho : findFileOwned st.files fid u with
      | none => left; simp [putVis, hs, ho]
      | some w =>
        cases hb : findFileById (updateFirstIsPublic st.files fid b) fid with
        | none => right; simp [putVis, hs, ho, hb]
        | some v => right; simp [putVis, hs, ho, hb]

/-- C8: however a publish or unpublish request ends, the `files` collection
changes at most in the `isPublic` field of the target id's document, every
document with a different id is untouched, and the storage area and queue
are untouched — in particular this holds for every successful toggle. -/
theorem c8_visibility_frame (sess : Sessions) (token? : Option String)
    (fid : String) (st : St) :
    (List.Forall₂
        (fun o n => sameExceptPublic o n ∧ ((o._id == fid) = false → n = o))
        st.files ((putPublish sess token? fid st).2).files
      ∧ ((putPublish sess token? fid st).2).disk = st.disk
      ∧ ((putPublish sess token? fid st).2).queue = st.queue)
    ∧ (List.Forall₂
        (fun o n => sameExceptPublic o n ∧ ((o._id == fid) = false → n = o))
        st.files ((putUnpublish sess token? fid st).2).files
      ∧ ((putUnpublish sess token? fid st).2).disk = st.disk
      ∧ ((putUnpublish sess token? fid st).2).queue = st.queue) := by
  constructor
  · show List.Forall₂ _ st.files ((putVis true sess token? fid st).2).files
      ∧ ((putVis true sess token? fid st).2).disk = st.disk
      ∧ ((putVis true sess token? fid st).2).queue = st.queue
    rcases putVis_state true sess token? fid st with h | h <;> rw [h]
    · exact ⟨List.forall₂_same.mpr fun x _ =>
        ⟨⟨rfl, rfl, rfl, rfl, rfl, rfl⟩, fun _ => rfl⟩, rfl, rfl⟩
    · exact ⟨updateFirstIsPublic_frame st.files fid true, rfl, rfl⟩
  · show List.Forall₂ _ st.files ((putVis false sess token? fid st).2).files
      ∧ ((putVis false sess token? fid st).2).disk = st.disk
      ∧ ((putVis false sess token? fid st).2).queue = st.queue
    rcases putVis_state false sess token? fid st with h | h <;> rw [h]
    · exact ⟨List.forall₂_same.mpr fun x _ =>
        ⟨⟨rfl, rfl, rfl, rfl, rfl, rfl⟩, fun _ => rfl⟩, rfl, rfl⟩
    · exact ⟨updateFirstIsPublic_frame st.files fid false, rfl, rfl⟩

/-- C8 witness: publishing a file entry the caller owns succeeds and the
frame relation holds at that state. -/
theorem c8_visibility_frame_witness :
    (putPublish [("auth_t", "u")] (some "t") "N2"
        (St.mk [FileDoc.mk "N2" (BVal.oid "u") "a.txt" "file" false
          (BVal.str "0") (some "/tmp/files_manager/F")] [] [])).1
      = VisRes.ok (FileDoc.mk "N2" (BVal.oid "u") "a.txt" "file" true
          (BVal.str "0") (some "/tmp/files_manager/F"))
    ∧ List.Forall₂
        (fun o n => sameExceptPublic o n ∧ ((o._id == "N2") = false → n = o))
        [FileDoc.mk "N2" (BVal.oid "u") "a.txt" "file" false
          (BVal.str "0") (some "/tmp/files_manager/F")]
        ((putPublish [("auth_t", "u")] (some "t") "N2"
          (St.mk [FileDoc.mk "N2" (BVal.oid "u") "a.txt" "file" false
            (BVal.str "0") (some "/tmp/files_manager/F")] [] [])).2).files :=
  ⟨rfl,
   (c8_visibility_frame [("auth_t", "u")] (some "t") "N2"
      (St.mk [FileDoc.mk "N2" (BVal.oid "u") "a.txt" "file" false
        (BVal.str "0") (some "/tmp/files_manager/F")] [] [])).1.1⟩

/-- The folder branch of the core upload step appends exactly one document,
with the raw-string owner id and no storage path. -/
theorem postUploadCore_folder_state (userId : String) (body : UploadBody)
    (P : BVal) (fileId newId : String) (writeOk : Bool) (st : St) (ev : List Ev)
    (ht : (body.type == "folder") = true) :
    ((postUploadCore userId body P fileId newId writeOk st ev).2.1).files
      = st.files ++ [FileDoc.mk newId (BVal.str userId) body.name body.type
          body.isPublic P none] := by
  simp [postUploadCore, ht]

/-- A failing byte write aborts the core upload step: no result but the
error, and the state and the effect list are exactly as before. -/
theorem postUploadCore_writeFail (userId : String) (body : UploadBody)
    (P : BVal) (fileId newId : String) (st : St) (ev : List Ev)
    (ht : (body.type == "folder") = false) :
    postUploadCore userId body P fileId newId false st ev
      = (UpRes.writeError, st, ev) := by
  simp [postUploadCore, ht]

/-- A successful file/image core upload appends exactly the committed
document and writes the decoded bytes at the fresh storage location. -/
theorem postUploadCore_writeOk_state (userId : String) (body : UploadBody)
    (P : BVal) (fileId newId : String) (st : St) (ev : List Ev)
    (ht : (body.type == "folder") = false) :
    ((postUploadCore userId body P fileId newId true st ev).2.1).files
      = st.files ++ [FileDoc.mk newId (BVal.oid userId) body.name body.type
          body.isPublic P (some (folderName ++ "/" ++ fileId))]
    ∧ ((postUploadCore userId body P fileId newId true st ev).2.1).disk
      = diskWrite st.disk (folderName ++ "/" ++ fileId)
          (b64decode (body.data.getD "")) := by
  by_cases himg : (body.type == "image") = true <;>
    exact ⟨by simp [postUploadCore, ht, himg], by simp [postUploadCore, ht, himg]⟩

/-- Any document present after the core upload step was already stored, or
is the newly committed one: it carries the request's `isPublic` and the
resolved parent value. -/
theorem postUploadCore_new (userId : String) (body : UploadBody) (P : BVal)
    (fileId newId : String) (writeOk : Bool) (st : St) (ev : List Ev) :
    ∀ f ∈ ((postUploadCore userId body P fileId newId writeOk st ev).2.1).files,
      f ∈ st.files ∨ (f.isPublic = body.isPublic ∧ f.parentId = P) := by
  intro f hf
  by_cases ht : (body.type == "folder") = true
  · rw [postUploadCore_folder_state userId body P fileId newId writeOk st ev ht]
      at hf
    rcases List.mem_append.mp hf with h | h
    · exact Or.inl h
    · rw [List.mem_singleton.mp h]; exact Or.inr ⟨rfl, rfl⟩
  · have ht' : (body.type == "folder") = false := by simpa using ht
    cases writeOk with
    | false =>
      rw [postUploadCore_writeFail userId body P fileId newId st ev ht'] at hf
      exact Or.inl hf
    | true =>
      rw [(postUploadCore_writeOk_state userId body P fileId newId st ev ht').1]
        at hf
      rcases List.mem_append.mp hf with h | h
      · exact Or.inl h
      · rw [List.mem_singleton.mp h]; exact Or.inr ⟨rfl, rfl⟩

/-- C9: whatever the branch taken by `postUpload`, when the request's
`isPublic` is absent or falsy every document of the resulting store either
was already there or is private (`isPublic = false`). -/
theorem c9_private_default (sess : Sessions) (token? : Option String)
    (body : UploadBody) (fileId newId : String) (writeOk : Bool) (st : St)
    (hpub : body.isPublic = false) :
    ∀ f ∈ ((postUpload sess token? body fileId newId writeOk st).2.1).files,
      f ∈ st.files ∨ f.isPublic = false := by
  intro f hf
  cases token? with
  | none => exact Or.inl hf
  | some t =>
    cases hs : sget sess ("auth_" ++ t) with
    | none =>
      simp only [postUpload, hs] at hf
      exact Or.inl hf
    | some u =>
      simp only [postUpload, hs] at hf
      by_cases h1 : (body.name == "") = true
      · rw [if_pos h1] at hf; exact Or.inl hf
      · rw [if_neg h1] at hf
        by_cases h2 : (!validType body.type) = true
        · rw [if_pos h2] at hf; exact Or.inl hf
        · rw [if_neg h2] at hf
          by_cases h3 : (body.data.isNone && !(body.type == "folder")) = true
          · rw [if_pos h3] at hf; exact Or.inl hf
          · rw [if_neg h3] at hf
            by_cases h4 : (body.parentId.getD "0" == "0") = true
            · rw [if_pos h4] at hf
              rcases postUploadCore_new u body (BVal.str "0") fileId newId
                  writeOk st [] f hf with h | h
              · exact Or.inl h
              · exact Or.inr (hpub ▸ h.1)
            · rw [if_neg h4] at hf
              cases hp : findFileById st.files (body.parentId.getD "0") with
              | none => rw [hp] at hf; exact Or.inl hf
              | some pf =>
                simp only [hp] at hf
                by_cases h5 : (!(pf.type == "folder")) = true
                · rw [if_pos h5] at hf; exact Or.inl hf
                · rw [if_neg h5] at hf
                  rcases postUploadCore_new u body
                      (BVal.oid (body.parentId.getD "0")) fileId newId
                      writeOk st [Ev.lookupParent (body.parentId.getD "0")]
                      f hf with h | h
                  · exact Or.inl h
                  · exact Or.inr (hpub ▸ h.1)

/-- C9 witness: the folder committed by an upload that omitted `isPublic`
is private. -/
theorem c9_private_default_witness :
    (FileDoc.mk "N1" (BVal.str "u") "docs" "folder" false (BVal.str "0")
        none) ∈
      ((postUpload [("auth_t", "u")] (some "t")
        (UploadBody.mk "docs" "folder" false none none) "F" "N1" true
        (St.mk [] [] [])).2.1).files
    ∧ ((FileDoc.mk "N1" (BVal.str "u") "docs" "folder" false (BVal.str "0")
          none) ∈ (St.mk [] [] []).files
       ∨ (FileDoc.mk "N1" (BVal.str "u") "docs" "folder" false (BVal.str "0")
          none).isPublic = false) :=
  ⟨show (FileDoc.mk "N1" (BVal.str "u") "docs" "folder" false (BVal.str "0")
      none) ∈ [FileDoc.mk "N1" (BVal.str "u") "docs" "folder" false
      (BVal.str "0") none] from List.mem_singleton.mpr rfl,
   c9_private_default [("auth_t", "u")] (some "t")
     (UploadBody.mk "docs" "folder" false none none) "F" "N1" true
     (St.mk [] [] []) rfl
     (FileDoc.mk "N1" (BVal.str "u") "docs" "folder" false (BVal.str "0") none)
     (show (FileDoc.mk "N1" (BVal.str "u") "docs" "folder" false (BVal.str "0")
        none) ∈ [FileDoc.mk "N1" (BVal.str "u") "docs" "folder" false
        (BVal.str "0") none] from List.mem_singleton.mpr rfl)⟩

/-- The exact effect list appended by the core upload step: a commit alone
for folders; for file/image, the byte write strictly before the commit, the
enqueue strictly after the commit and only for images, and nothing at all
when the write fails. -/
theorem postUploadCore_trace (userId : String) (body : UploadBody) (P : BVal)
    (fileId newId : String) (writeOk : Bool) (st : St) (ev : List Ev) :
    (postUploadCore userId body P fileId newId writeOk st ev).2.2
      = ev ++
        (if body.type == "folder" then [Ev.commitMeta newId]
         else if writeOk then
           (if body.type == "image" then
             [Ev.writeBytes (folderName ++ "/" ++ fileId)
                (b64decode (body.data.getD "")),
              Ev.commitMeta newId, Ev.enqueueJob newId userId]
            else
             [Ev.writeBytes (folderName ++ "/" ++ fileId)
                (b64decode (body.data.getD "")),
              Ev.commitMeta newId])
         else []) := by
  by_cases ht : (body.type == "folder") = true
  · simp [postUploadCore, ht]
  · have ht' : (body.type == "folder") = false := by simpa using ht
    cases writeOk with
    | false => simp [postUploadCore, ht']
    | true =>
      by_cases himg : (body.type == "image") = true <;>
        simp [postUploadCore, ht', himg]

/-- After authentication and the three validation checks pass, `postUpload`
is exactly the parent-resolution stage followed by the core step. -/
theorem postUpload_toCore (sess : Sessions) (token userId : String)
    (body : UploadBody) (fileId newId : String) (writeOk : Bool) (st : St)
    (hauth : sget sess ("auth_" ++ token) = some userId)
    (hname : (body.name == "") = false)
    (htype : validType body.type = true)
    (hdata : (body.data.isNone && !(body.type == "folder")) = false) :
    postUpload sess (some token) body fileId newId writeOk st
      = (if body.parentId.getD "0" == "0" then
          postUploadCore userId body (BVal.str "0") fileId newId writeOk st []
         else
          match findFileById st.files (body.parentId.getD "0") with
          | none => (UpRes.badRequest "Parent not found", st,
                     [Ev.lookupParent (body.parentId.getD "0")])
          | some parentFile =>
            if !(parentFile.type == "folder") then
              (UpRes.badRequest "Parent is not a folder", st,
               [Ev.lookupParent (body.parentId.getD "0")])
            else postUploadCore userId body
                   (BVal.oid (body.parentId.getD "0")) fileId newId writeOk
                   st [Ev.lookupParent (body.parentId.getD "0")]) := by
  simp only [postUpload, hauth, hname, htype, hdata]
  simp

/-- C4: with authentication and validation out of the way, a root or absent
parent reference is resolved without any metadata-store lookup and every
newly committed document carries the root sentinel; a non-root reference is
looked up exactly once by identifier alone, and a missing record or a
non-folder record rejects the upload with the state untouched and no byte
write or metadata commit performed. -/
theorem c4_parent_resolution (sess : Sessions) (token userId : String)
    (body : UploadBody) (fileId newId : String) (writeOk : Bool) (st : St)
    (hauth : sget sess ("auth_" ++ token) = some userId)
    (hname : (body.name == "") = false)
    (htype : validType body.type = true)
    (hdata : (body.data.isNone && !(body.type == "folder")) = false) :
    (body.parentId.getD "0" = "0" →
      (∀ p, Ev.lookupParent p ∉
        (postUpload sess (some token) body fileId newId writeOk st).2.2)
      ∧ ∀ f ∈ ((postUpload sess (some token) body fileId newId
            writeOk st).2.1).files,
          f ∈ st.files ∨ f.parentId = BVal.str "0")
    ∧ (body.parentId.getD "0" ≠ "0" →
      (findFileById st.files (body.parentId.getD "0") = none →
        postUpload sess (some token) body fileId newId writeOk st
          = (UpRes.badRequest "Parent not found", st,
             [Ev.lookupParent (body.parentId.getD "0")]))
      ∧ (∀ pf, findFileById st.files (body.parentId.getD "0") = some pf →
          (pf.type == "folder") = false →
          postUpload sess (some token) body fileId newId writeOk st
            = (UpRes.badRequest "Parent is not a folder", st,
               [Ev.lookupParent (body.parentId.getD "0")]))) := by
  rw [postUpload_toCore sess token userId body fileId newId writeOk st
    hauth hname htype hdata]
  constructor
  · intro hroot
    rw [if_pos (by simp [hroot])]
    constructor
    · intro p
      rw [postUploadCore_trace]
      by_cases ht : (body.type == "folder") = true
      · simp [ht]
      · have ht' : (body.type == "folder") = false := by simpa using ht
        cases writeOk with
        | false => simp [ht']
        | true =>
          by_cases himg : (body.type == "image") = true <;> simp [ht', himg]
    · intro f hf
      rcases postUploadCore_new userId body (BVal.str "0") fileId newId
          writeOk st [] f hf with h | h
      · exact Or.inl h
      · exact Or.inr h.2
  · intro hnr
    rw [if_neg (by simp [hnr])]
    constructor
    · intro hnone
      rw [hnone]
    · intro pf hpf hft
      rw [hpf]
      simp only [hft, Bool.not_false, if_true]

/-- C4 witness: an upload naming a parent id absent from the store is
rejected with `Parent not found`, leaving the empty state untouched, with
exactly one parent lookup and no write or commit effect. -/
theorem c4_parent_resolution_witness :
    postUpload [("auth_t", "u")] (some "t")
        (UploadBody.mk "a.txt" "file" false (some "aGk=") (some "f1a2"))
        "F" "N" true (St.mk [] [] [])
      = (UpRes.badRequest "Parent not found", St.mk [] [] [],
         [Ev.lookupParent "f1a2"]) :=
  ((c4_parent_resolution [("auth_t", "u")] "t" "u"
      (UploadBody.mk "a.txt" "file" false (some "aGk=") (some "f1a2"))
      "F" "N" true (St.mk [] [] []) rfl rfl rfl rfl).2
    (by decide)).1 rfl

/-- C2: for a validated file/image upload whose parent resolves, a
successful run's effect list is the byte write at the fresh location,
then the metadata commit, then — for images only — the enqueue, with at
most parent lookups before them; and when the byte write fails the
operation reports the failure, commits nothing, enqueues nothing, and
leaves no record referencing the fresh location. -/
theorem c2_write_before_commit (sess : Sessions) (token userId : String)
    (body : UploadBody) (fileId newId : String) (writeOk : Bool) (st : St)
    (hauth : sget sess ("auth_" ++ token) = some userId)
    (hname : (body.name == "") = false)
    (htype : body.type = "file" ∨ body.type = "image")
    (hdata : body.data.isSome = true)
    (hparent : body.parentId.getD "0" = "0" ∨
      ∃ pf, findFileById st.files (body.parentId.getD "0") = some pf
            ∧ (pf.type == "folder") = true) :
    (writeOk = true →
      ∃ ev0,
        (postUpload sess (some token) body fileId newId writeOk st).2.2
          = ev0 ++ ([Ev.writeBytes (folderName ++ "/" ++ fileId)
                       (b64decode (body.data.getD "")),
                     Ev.commitMeta newId]
                    ++ (if body.type == "image"
                        then [Ev.enqueueJob newId userId] else []))
        ∧ ∀ e ∈ ev0, ∃ p, e = Ev.lookupParent p)
    ∧ (writeOk = false →
      (postUpload sess (some token) body fileId newId writeOk st).1
          = UpRes.writeError
      ∧ ((postUpload sess (some token) body fileId newId
            writeOk st).2.1).files = st.files
      ∧ ((postUpload sess (some token) body fileId newId
            writeOk st).2.1).queue = st.queue
      ∧ ((∀ f ∈ st.files, f.localPath ≠ some (folderName ++ "/" ++ fileId)) →
         ∀ f ∈ ((postUpload sess (some token) body fileId newId
             writeOk st).2.1).files,
           f.localPath ≠ some (folderName ++ "/" ++ fileId))) := by
  have htf : (body.type == "folder") = false := by
    rcases htype with h | h <;> simp [h]
  have htv : validType body.type = true := by
    rcases htype with h | h <;> simp [validType, h]
  have hdn : (body.data.isNone && !(body.type == "folder")) = false := by
    cases hd : body.data with
    | none => rw [hd] at hdata; simp at hdata
    | some d => simp [hd]
  rw [postUpload_toCore sess token userId body fileId newId writeOk st
    hauth hname htv hdn]
  by_cases hpid : (body.parentId.getD "0" == "0") = true
  · rw [if_pos hpid]
    constructor
    · rintro rfl
      refine ⟨[], ?_, by simp⟩
      rw [postUploadCore_trace]
      by_cases himg : (body.type == "image") = true <;> simp [htf, himg]
    · rintro rfl
      rw [postUploadCore_writeFail userId body (BVal.str "0") fileId newId
        st [] htf]
      exact ⟨rfl, rfl, rfl, fun h => h⟩
  · rw [if_neg hpid]
    rcases hparent with hroot | ⟨pf, hpf, hpft⟩
    · exact absurd (by simp [hroot]) hpid
    · rw [hpf]
      simp only [hpft, Bool.not_true, Bool.false_eq_true, if_false]
      constructor
      · rintro rfl
        refine ⟨[Ev.lookupParent (body.parentId.getD "0")], ?_, ?_⟩
        · rw [postUploadCore_trace]
          by_cases himg : (body.type == "image") = true <;> simp [htf, himg]
        · intro e he
          rw [List.mem_singleton.mp he]
          exact ⟨body.parentId.getD "0", rfl⟩
      · rintro rfl
        rw [postUploadCore_writeFail userId body
          (BVal.oid (body.parentId.getD "0")) fileId newId st
          [Ev.lookupParent (body.parentId.getD "0")] htf]
        exact ⟨rfl, rfl, rfl, fun h => h⟩

/-- C2 witness: a concrete image upload at root with a succeeding write has
exactly the write-then-commit-then-enqueue effect list. -/
theorem c2_write_before_commit_witness :
    ∃ ev0,
      (postUpload [("auth_t", "u")] (some "t")
          (UploadBody.mk "p.png" "image" false (some "aGk=") none)
          "F" "N3" true (St.mk [] [] [])).2.2
        = ev0 ++ ([Ev.writeBytes ("/tmp/files_manager" ++ "/" ++ "F")
                     (b64decode "aGk="),
                   Ev.commitMeta "N3"]
                  ++ (if ("image" : String) == "image"
                      then [Ev.enqueueJob "N3" "u"] else []))
      ∧ ∀ e ∈ ev0, ∃ p, e = Ev.lookupParent p :=
  (c2_write_before_commit [("auth_t", "u")] "t" "u"
      (UploadBody.mk "p.png" "image" false (some "aGk=") none)
      "F" "N3" true (St.mk [] [] []) rfl rfl (Or.inr rfl) rfl
      (Or.inl rfl)).1 rfl

/-- Fetching the entry committed by a successful file/image core step, as
its owner and with no size token, serves exactly the decoded bytes. -/
theorem getFile_core_roundtrip (sess : Sessions) (token userId : String)
    (body : UploadBody) (P : BVal) (fileId newId : String) (st : St)
    (ev : List Ev)
    (hauth : sget sess ("auth_" ++ token) = some userId)
    (htf : (body.type == "folder") = false)
    (hfresh : ∀ f ∈ st.files, (f._id == newId) = false) :
    getFile sess (some token) newId none
        (postUploadCore userId body P fileId newId true st ev).2.1
      = FetchRes.ok (b64decode (body.data.getD "")) := by
  obtain ⟨hfiles, hdisk⟩ :=
    postUploadCore_writeOk_state userId body P fileId newId st ev htf
  have hnone : findFileById st.files newId = none := by
    unfold findFileById
    exact List.find?_eq_none.mpr (fun x hx => by simp [hfresh x hx])
  have hfind : findFileById
      ((postUploadCore userId body P fileId newId true st ev).2.1).files newId
      = some (FileDoc.mk newId (BVal.oid userId) body.name body.type
          body.isPublic P (some (folderName ++ "/" ++ fileId))) := by
    rw [hfiles]
    unfold findFileById at hnone ⊢
    rw [find?_append_of_none _ _ _ hnone]
    simp
  simp only [getFile]
  rw [hfind]
  simp [hauth, fetchAccessOk, BVal.bstr, htf, resolvePath, diskRead, hdisk,
    diskWrite]

/-- C5: for every validated file/image upload whose parent resolves and
whose committed id is fresh, fetching the new entry back as its owner
serves exactly the base64-decoded input — the write/read round-trip. -/
theorem c5_roundtrip (sess : Sessions) (token userId : String)
    (body : UploadBody) (fileId newId : String) (st : St)
    (hauth : sget sess ("auth_" ++ token) = some userId)
    (hname : (body.name == "") = false)
    (htype : body.type = "file" ∨ body.type = "image")
    (hdata : body.data.isSome = true)
    (hparent : body.parentId.getD "0" = "0" ∨
      ∃ pf, findFileById st.files (body.parentId.getD "0") = some pf
            ∧ (pf.type == "folder") = true)
    (hfresh : ∀ f ∈ st.files, (f._id == newId) = false) :
    getFile sess (some token) newId none
        (postUpload sess (some token) body fileId newId true st).2.1
      = FetchRes.ok (b64decode (body.data.getD "")) := by
  have htf : (body.type == "folder") = false := by
    rcases htype with h | h <;> simp [h]
  have htv : validType body.type = true := by
    rcases htype with h | h <;> simp [validType, h]
  have hdn : (body.data.isNone && !(body.type == "folder")) = false := by
    cases hd : body.data with
    | none => rw [hd] at hdata; simp at hdata
    | some d => simp [hd]
  rw [postUpload_toCore sess token userId body fileId newId true st
    hauth hname htv hdn]
  by_cases hpid : (body.parentId.getD "0" == "0") = true
  · rw [if_pos hpid]
    exact getFile_core_roundtrip sess token userId body (BVal.str "0")
      fileId newId st [] hauth htf hfresh
  · rw [if_neg hpid]
    rcases hparent with hroot | ⟨pf, hpf, hpft⟩
    · exact absurd (by simp [hroot]) hpid
    · rw [hpf]
      simp only [hpft, Bool.not_true, Bool.false_eq_true, if_false]
      exact getFile_core_roundtrip sess token userId body
        (BVal.oid (body.parentId.getD "0")) fileId newId st
        [Ev.lookupParent (body.parentId.getD "0")] hauth htf hfresh

/-- C5 witness: uploading base64 `"aGk="` and fetching the entry back as
the owner serves the bytes of `"hi"`. -/
theorem c5_roundtrip_witness :
    getFile [("auth_t", "u")] (some "t") "N2" none
        (postUpload [("auth_t", "u")] (some "t")
          (UploadBody.mk "a.txt" "file" false (some "aGk=") none)
          "F" "N2" true (St.mk [] [] [])).2.1
      = FetchRes.ok [104, 105] :=
  c5_roundtrip [("auth_t", "u")] "t" "u"
    (UploadBody.mk "a.txt" "file" false (some "aGk=") none)
    "F" "N2" (St.mk [] [] []) rfl rfl (Or.inl rfl) rfl (Or.inl rfl)
    (fun f hf => absurd hf (List.not_mem_nil f))
